import Mathlib

/-!
Shallow embedding of the client-side interaction layer in `src/script.js`
(mobile navigation, Calendly focus-trap modal, business-type selector,
contact-form validation and submission), together with theorems settling
the specification claims about it.
-/

set_option maxRecDepth 4000
set_option linter.unnecessarySeqFocus false

namespace ArmanLeads

/-- JavaScript whitespace (`\s` in a JS regex, and the characters removed by
`String.prototype.trim`): space, tab, line terminators, and the Unicode
space separators. -/
def jsWs (c : Char) : Bool :=
  let n := c.toNat
  n = 0x20 || n = 0x09 || n = 0x0a || n = 0x0b || n = 0x0c || n = 0x0d ||
  n = 0xa0 || n = 0x1680 || (0x2000 ≤ n && n ≤ 0x200a) ||
  n = 0x2028 || n = 0x2029 || n = 0x202f || n = 0x205f || n = 0x3000 || n = 0xfeff

/-- `value.trim()`: strip JS whitespace from both ends. -/
def jsTrim (s : String) : String :=
  String.mk (((s.data.dropWhile jsWs).reverse.dropWhile jsWs).reverse)

/-- The email regex of `validateForm` (src/script.js line 223):
`^[^\s@]+@[^\s@]+\.[^\s@]+$`.  A string matches iff it has no whitespace,
exactly one `@` which is not the first character, and after the `@` there is
a `.` that is neither the first nor the last of the remaining characters. -/
def emailRegexMatch (s : String) : Bool :=
  let cs := s.data
  cs.all (fun c => !jsWs c) &&
  cs.count '@' == 1 &&
  (match cs.findIdx? (· == '@') with
   | none => false
   | some i =>
     let rest := cs.drop (i + 1)
     i != 0 && ((rest.drop 1).dropLast.contains '.'))

/-- A form control as `validateForm` / the submit handler sees it:
its `name` attribute, whether it carries `required`, whether it is an
`input[type="email"]`, its current and default `value`, and whether its
border is currently set to the error color (`flagged`). -/
structure Field where
  name : String
  required : Bool
  typeEmail : Bool
  value : String
  defaultValue : String
  flagged : Bool
deriving Repr, DecidableEq

/-- Effect of the required-fields pass on one field: a required field whose
trimmed value is empty gets the error border, any other required field gets
its border cleared, and non-required fields are untouched. -/
def reqMark (f : Field) : Field :=
  if f.required then { f with flagged := (jsTrim f.value).isEmpty } else f

/-- First pass of `validateForm` (src/script.js lines 209-218):
`form.querySelectorAll('[required]')` — apply `reqMark` to every field. -/
def requiredPhase (fs : List Field) : List Field :=
  fs.map reqMark

/-- `isValid` after the required-fields pass: every required field has a
non-empty trimmed value. -/
def requiredOk (fs : List Field) : Bool :=
  fs.all (fun f => !f.required || !(jsTrim f.value).isEmpty)

/-- Second pass of `validateForm` (src/script.js lines 221-228):
`form.querySelector('input[type="email"]')` selects the FIRST email-typed
field; if it exists and its value is non-empty (truthy) and fails the email
regex, `isValid` becomes false and the field is flagged.  Returns the
updated field list and whether the email check passed. -/
def emailPhase : List Field → List Field × Bool
  | [] => ([], true)
  | f :: rest =>
    if f.typeEmail then
      if !f.value.isEmpty && !emailRegexMatch f.value then
        ({ f with flagged := true } :: rest, false)
      else (f :: rest, true)
    else
      let p := emailPhase rest
      (f :: p.1, p.2)

/-- `validateForm` (src/script.js lines 207-231): run the required pass then
the email pass; the result is valid iff both passed.  Returns `isValid`
together with the fields as left by the two passes. -/
def validateForm (fs : List Field) : Bool × List Field :=
  let fs1 := requiredPhase fs
  let p := emailPhase fs1
  (requiredOk fs && p.2, p.1)

/-- Index of the first email-typed field, the one
`form.querySelector('input[type="email"]')` returns. -/
def firstEmailIdx : List Field → Option Nat
  | [] => none
  | f :: rest => if f.typeEmail then some 0 else (firstEmailIdx rest).map (· + 1)

/-- A field fails the required check: it is required and its trimmed value
is empty. -/
def reqFails (f : Field) : Bool :=
  f.required && (jsTrim f.value).isEmpty

/-- A field fails the email check proper: it is email-typed, its value is
non-empty, and the value does not match the email regex. -/
def emailFails (f : Field) : Bool :=
  f.typeEmail && !f.value.isEmpty && !emailRegexMatch f.value

/-- The field at position `i` of the snapshot fails validation: it fails
the required check, or it is the one email field `validateForm` inspects
(the first email-typed one) and fails the email check. -/
def fieldFails (fs : List Field) (i : Nat) (f : Field) : Bool :=
  reqFails f || (decide (firstEmailIdx fs = some i) && emailFails f)

/-- Whether the email pass succeeds, phrased via the first email-typed
field: vacuously true when there is none, otherwise the value must be
empty or match the regex. -/
def emailCheckOk (fs : List Field) : Bool :=
  match fs.find? (·.typeEmail) with
  | none => true
  | some f => f.value.isEmpty || emailRegexMatch f.value

/-- The honeypot check (src/script.js lines 242-245):
`form.querySelector('input[name="website_url"]')` exists and its value is
truthy (non-empty). -/
def honeypotFilled (fs : List Field) : Bool :=
  match fs.find? (fun f => f.name == "website_url") with
  | some f => !f.value.isEmpty
  | none => false

/-- A business-type card: its `data-type` attribute (absent = `none`) and
whether it carries the `active` class. -/
structure Card where
  dataType : Option String
  active : Bool
deriving Repr, DecidableEq

/-- `card.getAttribute('data-type') || 'dental'` (src/script.js line 193):
an absent attribute yields `null` and an empty attribute yields `''`, both
falsy, so both fall back to `"dental"`. -/
def cardIdent (c : Card) : String :=
  match c.dataType with
  | none => "dental"
  | some s => if s.isEmpty then "dental" else s

/-- `businessTypeCards.forEach(c => c.classList.remove('active'))`
(src/script.js line 186). -/
def clearActive (cs : List Card) : List Card :=
  cs.map (fun c => { c with active := false })

/-- `card.classList.add('active')` on the card at position `i`
(src/script.js line 189). -/
def setActiveAt : List Card → Nat → List Card
  | [], _ => []
  | c :: cs, 0 => { c with active := true } :: cs
  | c :: cs, n + 1 => c :: setActiveAt cs n

/-- The card reset performed after a successful submission
(src/script.js lines 273-279): drop `active` everywhere, then re-add it on
every card whose `data-type` attribute is exactly the string `"dental"`. -/
def resetCardsToDental (cs : List Card) : List Card :=
  cs.map (fun c => { c with active := decide (c.dataType = some "dental") })

/-- State owned by the business-type selector: the cards and the hidden
`#business-type` input's value. -/
structure SelState where
  cards : List Card
  hidden : String
deriving Repr, DecidableEq

/-- The click handler of a business-type card at position `i`
(src/script.js lines 184-194): clear `active` from all cards, mark the
clicked card active, and write its identifier (with the `'dental'`
fallback) into the hidden input.  A click always targets an existing card,
so the out-of-range case (which cannot arise in the page) leaves the hidden
value unchanged. -/
def select (st : SelState) (i : Nat) : SelState :=
  { cards := setActiveAt (clearActive st.cards) i,
    hidden := match st.cards[i]? with
              | some c => cardIdent c
              | none => st.hidden }

/-- A sequence of card clicks. -/
def runSelect (st : SelState) (seq : List Nat) : SelState :=
  seq.foldl select st

/-- Modelled from the spec: the initial page markup (the HTML document is
not part of src/) gives the business-type selector its load-time state —
the card whose identifier is "dental" is marked active and the hidden field
holds "dental". -/
def selInit (ids : List (Option String)) : SelState :=
  { cards := ids.map (fun d => { dataType := d, active := decide (d = some "dental") }),
    hidden := "dental" }

/-- Number of cards carrying the `active` class. -/
def activeCount (cs : List Card) : Nat :=
  cs.countP (·.active)

/-- Number of cards whose `data-type` attribute is exactly `"dental"`. -/
def dentalCount (cs : List Card) : Nat :=
  cs.countP (fun c => decide (c.dataType = some "dental"))

/-- Outcome of the `fetch` call: an HTTP response with a status code, or a
thrown transport error. -/
inductive FetchResult where
  | resp (status : Nat)
  | transportError
deriving Repr, DecidableEq

/-- `response.ok`: the HTTP status is in the 2xx range (200-299); a
transport error never reaches a response. -/
def FetchResult.ok : FetchResult → Bool
  | .resp s => 200 ≤ s && s ≤ 299
  | .transportError => false

/-- Which optional page elements exist around the form (each one is looked
up and guarded separately by the submit handler). -/
structure PageEnv where
  submitButtonPresent : Bool
  successMsgPresent : Bool
  businessTypeInputPresent : Bool
deriving Repr, DecidableEq

/-- The page state the submit handler reads and writes: the form's fields,
the business-type cards and hidden value, whether the success message shows,
and whether the submit button is disabled. -/
structure FormPage where
  fields : List Field
  cards : List Card
  businessTypeValue : String
  successShown : Bool
  submitDisabled : Bool
deriving Repr, DecidableEq

/-- Externally observable side effects of one submit attempt: how many
network requests were issued and whether the blocking `alert` was shown. -/
structure SubmitTrace where
  networkCalls : Nat
  alerted : Bool
deriving Repr, DecidableEq

/-- `form.reset()`: every field returns to its default value (border styles
are not touched by `reset`). -/
def resetFields (fs : List Field) : List Field :=
  fs.map (fun f => { f with value := f.defaultValue })

/-- The submit handler (src/script.js lines 234-292), given the form state
and the environment's response to the (at most one) `fetch`:
run `validateForm` (which updates the field flags) and stop if invalid;
stop silently if the honeypot field is present and non-empty; otherwise
disable the submit button, issue the one network call, on a 2xx response
show the success message, reset the fields, reset the hidden business-type
value and the cards to "dental", on anything else show the `alert`, and in
a `finally` block re-enable the submit button. -/
def handleSubmit (env : PageEnv) (st : FormPage) (net : FetchResult) :
    FormPage × SubmitTrace :=
  let v := validateForm st.fields
  let st := { st with fields := v.2 }
  if !v.1 then (st, ⟨0, false⟩)
  else if honeypotFilled st.fields then (st, ⟨0, false⟩)
  else
    let st := if env.submitButtonPresent then { st with submitDisabled := true } else st
    let st :=
      if net.ok then
        let st := if env.successMsgPresent then { st with successShown := true } else st
        let st := { st with fields := resetFields st.fields }
        let st := if env.businessTypeInputPresent then { st with businessTypeValue := "dental" } else st
        { st with cards := resetCardsToDental st.cards }
      else st
    let st := if env.submitButtonPresent then { st with submitDisabled := false } else st
    (st, ⟨1, !net.ok⟩)

/-- State owned by the mobile navigation (src/script.js lines 65-118):
the `isOpen` flag, the toggle's `aria-expanded` attribute, the menu's
`active` class, the body's `modal-open` class, and whether the last action
moved focus back to the toggle. -/
structure NavState where
  isOpen : Bool
  ariaExpanded : Bool
  menuActive : Bool
  bodyModalOpen : Bool
  focusOnToggle : Bool
deriving Repr, DecidableEq

/-- `openMenu` (src/script.js lines 72-77). -/
def openMenu (st : NavState) : NavState :=
  { st with isOpen := true, ariaExpanded := true, menuActive := true, bodyModalOpen := true }

/-- `closeMenu` (src/script.js lines 79-85): also refocuses the toggle. -/
def closeMenu (_st : NavState) : NavState :=
  { isOpen := false, ariaExpanded := false, menuActive := false,
    bodyModalOpen := false, focusOnToggle := true }

/-- The click handler attached to every link in the nav menu
(src/script.js lines 111-117): close the menu when
`window.innerWidth <= 767`. -/
def navLinkClick (st : NavState) (innerWidth : Nat) : NavState :=
  if innerWidth ≤ 767 then closeMenu st else st

/-- Elements are identified abstractly by numbers (the modal model only
compares them for identity). -/
abbrev Elem := Nat

/-- Keyboard keys the modal's document-level keydown handler inspects. -/
inductive MKey where
  | escape
  | tab
  | other
deriving Repr, DecidableEq

/-- Events driving the Calendly modal: `openModal` (carrying the focusable
descendants found by the fresh `updateFocusableElements` query), a close
(close button or programmatic), a keydown with its shift flag, and an
ambient focus change (browser default tabbing or user clicks, which the
script does not intercept). -/
inductive MEvent where
  | openEv (content : List Elem)
  | closeEv
  | keyEv (key : MKey) (shift : Bool)
  | focusSet (e : Elem)
deriving Repr, DecidableEq

/-- State owned by the Calendly modal (src/script.js lines 312-316 and the
DOM bits it drives): `isModalOpen`, the last computed `focusableElements`
snapshot (its first/last entries are the trap boundaries), the lazy-load
latch `iframeSrcSet`, the iframe's `src`, a count of how many times `src`
was assigned, the `active` class, `aria-hidden`, and the currently focused
element. -/
structure MState where
  isModalOpen : Bool
  focusableElements : List Elem
  iframeSrcSet : Bool
  iframeSrc : Option String
  srcAssignments : Nat
  modalActive : Bool
  ariaHidden : Bool
  focused : Elem
deriving Repr, DecidableEq

/-- The URL assigned to the Calendly iframe (src/script.js line 334). -/
def calendlyUrl : String := "https://calendly.com/vrmvn0/meeting"

/-- `openModal` (src/script.js lines 326-342), with `ip` recording whether
the `#calendly-iframe` element exists: mark open, set the iframe src on the
first open only (and only if the iframe exists), recompute
`focusableElements` from the live DOM (`content`), and focus the first
focusable element if there is one. -/
def openModal (ip : Bool) (content : List Elem) (st : MState) : MState :=
  let st := { st with isModalOpen := true, modalActive := true, ariaHidden := false }
  let st :=
    if !st.iframeSrcSet && ip then
      { st with iframeSrc := some calendlyUrl,
                srcAssignments := st.srcAssignments + 1,
                iframeSrcSet := true }
    else st
  let st := { st with focusableElements := content }
  match content.head? with
  | some f => { st with focused := f }
  | none => st

/-- `closeModal` (src/script.js lines 344-350): mark closed and focus the
trigger element. -/
def closeModal (trigger : Elem) (st : MState) : MState :=
  { st with isModalOpen := false, modalActive := false, ariaHidden := true,
            focused := trigger }

/-- The document-level keydown handler (src/script.js lines 366-389):
inert while the modal is closed; Escape closes; Tab at the last focusable
element wraps focus to the first, Shift+Tab at the first wraps to the last
(`document.activeElement` is compared against the stored boundary
snapshots). -/
def modalKeydown (trigger : Elem) (key : MKey) (shift : Bool) (st : MState) : MState :=
  if !st.isModalOpen then st
  else
    let st := if key = MKey.escape then closeModal trigger st else st
    if key = MKey.tab then
      if shift then
        if some st.focused = st.focusableElements.head? then
          match st.focusableElements.getLast? with
          | some l => { st with focused := l }
          | none => st
        else st
      else
        if some st.focused = st.focusableElements.getLast? then
          match st.focusableElements.head? with
          | some f => { st with focused := f }
          | none => st
        else st
    else st

/-- One step of the modal state machine. -/
def modalStep (trigger : Elem) (ip : Bool) (st : MState) : MEvent → MState
  | .openEv content => openModal ip content st
  | .closeEv => closeModal trigger st
  | .keyEv k sh => modalKeydown trigger k sh st
  | .focusSet e => { st with focused := e }

/-- State after `initCalendlyModal` ran (before any event): closed, no
focusables computed yet, latch unset, `aria-hidden` set at line 391, focus
wherever the document left it. -/
def modalInit (f0 : Elem) : MState :=
  { isModalOpen := false, focusableElements := [], iframeSrcSet := false,
    iframeSrc := none, srcAssignments := 0, modalActive := false,
    ariaHidden := true, focused := f0 }

/-- Run a sequence of modal events. -/
def modalRun (trigger : Elem) (ip : Bool) (st : MState) (evs : List MEvent) : MState :=
  evs.foldl (modalStep trigger ip) st

/-- Whether an event is an `openModal` call. -/
def MEvent.isOpen : MEvent → Bool
  | .openEv _ => true
  | _ => false

/-- Presence of each initialization mount point in the document
(src/script.js: the `getElementById` / `querySelectorAll` lookups each
`init*` function guards on). -/
structure ViewTree where
  preloader : Bool
  navbar : Bool
  navToggle : Bool
  navMenu : Bool
  businessTypeInput : Bool
  businessTypeCardCount : Nat
  contactForm : Bool
  calendlyTrigger : Bool
  calendlyModal : Bool
deriving Repr, DecidableEq

/-- Which components end up wired after `init` (src/script.js lines
395-403).  Every `init*` function is total: a missing element makes it
return early (for the contact form the submit-button lookup uses optional
chaining, `form?.querySelector`, so even that lookup cannot throw before
the guard). -/
structure InitResult where
  preloaderOn : Bool
  stickyOn : Bool
  mobileNavOn : Bool
  selectorOn : Bool
  contactFormOn : Bool
  modalOn : Bool
deriving Repr, DecidableEq

/-- The guards of the seven `init*` functions (src/script.js lines 36, 51,
68, 181, 204, 310): a component is wired iff its own mount points exist. -/
def initAll (vt : ViewTree) : InitResult :=
  { preloaderOn := vt.preloader,
    stickyOn := vt.navbar,
    mobileNavOn := vt.navToggle && vt.navMenu,
    selectorOn := vt.businessTypeInput && vt.businessTypeCardCount != 0,
    contactFormOn := vt.contactForm,
    modalOn := vt.calendlyTrigger && vt.calendlyModal }

/-! Concrete sample inputs used to instantiate the theorems below. -/

/-- A filled-in required name field. -/
def sampleName : Field :=
  { name := "name", required := true, typeEmail := false, value := "Ada",
    defaultValue := "", flagged := false }

/-- An empty required field, not yet flagged. -/
def sampleEmptyReq : Field :=
  { name := "phone", required := true, typeEmail := false, value := "",
    defaultValue := "", flagged := false }

/-- A non-required email field that is empty but still carries an error
border from an earlier attempt. -/
def sampleStaleEmail : Field :=
  { name := "email", required := false, typeEmail := true, value := "",
    defaultValue := "", flagged := true }

/-- A non-required email field that is empty and unflagged. -/
def sampleEmptyEmail : Field :=
  { name := "email", required := false, typeEmail := true, value := "",
    defaultValue := "", flagged := false }

/-- A honeypot field filled in by a bot. -/
def sampleHoneypot : Field :=
  { name := "website_url", required := false, typeEmail := false, value := "http://spam",
    defaultValue := "", flagged := false }

/-- All three optional form-adjacent elements present. -/
def sampleEnv : PageEnv := ⟨true, true, true⟩

/-- A page whose form has an empty required field and a filled honeypot. -/
def sampleBotPage : FormPage :=
  { fields := [sampleEmptyReq, sampleHoneypot], cards := [],
    businessTypeValue := "dental", successShown := false, submitDisabled := false }

/-- A page whose form passes validation (honeypot empty). -/
def sampleValidPage : FormPage :=
  { fields := [sampleName],
    cards := [⟨some "dental", false⟩, ⟨some "law", true⟩],
    businessTypeValue := "law", successShown := false, submitDisabled := false }

/-- A page whose form passes validation with no stale flags but whose
honeypot was filled in by a bot. -/
def sampleQuietBotPage : FormPage :=
  { fields := [sampleName, sampleHoneypot], cards := [],
    businessTypeValue := "dental", successShown := false, submitDisabled := false }

/-- A page whose form has a filled required field and an empty non-required
email field. -/
def sampleEmptyEmailPage : FormPage :=
  { fields := [sampleName, sampleEmptyEmail], cards := [],
    businessTypeValue := "dental", successShown := false, submitDisabled := false }

/-- A valid, honeypot-free page whose cards are the selector state reached
by clicking the "law" card and then the "dental" card of a two-card
markup. -/
def sampleSelectorPage : FormPage :=
  { fields := [sampleName],
    cards := (runSelect (selInit [some "dental", some "law"]) [1, 0]).cards,
    businessTypeValue := "law", successShown := false, submitDisabled := false }

/-- The mobile navigation state as initialized (menu closed). -/
def navInit : NavState :=
  { isOpen := false, ariaExpanded := false, menuActive := false,
    bodyModalOpen := false, focusOnToggle := false }

/-- An open modal whose focusables are `[3, 4]` and whose focus sits on the
last of them. -/
def sampleModalAtLast : MState :=
  { isModalOpen := true, focusableElements := [3, 4], iframeSrcSet := true,
    iframeSrc := some calendlyUrl, srcAssignments := 1, modalActive := true,
    ariaHidden := false, focused := 4 }

/-- An open modal whose focusables are `[3, 4]` and whose focus sits on the
first of them. -/
def sampleModalAtFirst : MState :=
  { isModalOpen := true, focusableElements := [3, 4], iframeSrcSet := true,
    iframeSrc := some calendlyUrl, srcAssignments := 1, modalActive := true,
    ariaHidden := false, focused := 3 }

/-- A view tree with every mount point present. -/
def sampleViewTree : ViewTree :=
  { preloader := true, navbar := true, navToggle := true, navMenu := true,
    businessTypeInput := true, businessTypeCardCount := 4, contactForm := true,
    calendlyTrigger := true, calendlyModal := true }

/-! ## Lemmas about `validateForm` -/

theorem reqMark_name (f : Field) : (reqMark f).name = f.name := by
  unfold reqMark; split <;> rfl

theorem reqMark_value (f : Field) : (reqMark f).value = f.value := by
  unfold reqMark; split <;> rfl

theorem reqMark_typeEmail (f : Field) : (reqMark f).typeEmail = f.typeEmail := by
  unfold reqMark; split <;> rfl

theorem reqMark_required (f : Field) : (reqMark f).required = f.required := by
  unfold reqMark; split <;> rfl

theorem emailFails_reqMark (f : Field) : emailFails (reqMark f) = emailFails f := by
  unfold emailFails
  rw [reqMark_typeEmail, reqMark_value]

theorem emailPhase_snd (l : List Field) : (emailPhase l).2 = emailCheckOk l := by
  induction l with
  | nil => rfl
  | cons f rest ih =>
    by_cases hte : f.typeEmail = true
    · by_cases he : f.value.isEmpty = true <;>
        by_cases hm : emailRegexMatch f.value = true <;>
          simp [emailPhase, emailCheckOk, List.find?_cons, hte, he, hm]
    · simp only [emailPhase, emailCheckOk, List.find?_cons, hte, Bool.false_eq_true,
        if_false, cond_false]
      simpa [emailCheckOk] using ih

theorem firstEmailIdx_requiredPhase (fs : List Field) :
    firstEmailIdx (requiredPhase fs) = firstEmailIdx fs := by
  induction fs with
  | nil => rfl
  | cons f rest ih =>
    simp only [requiredPhase, List.map_cons, firstEmailIdx, reqMark_typeEmail]
    split
    · rfl
    · rw [show List.map reqMark rest = requiredPhase rest from rfl, ih]

theorem find?_typeEmail_requiredPhase (fs : List Field) :
    (requiredPhase fs).find? (·.typeEmail) = (fs.find? (·.typeEmail)).map reqMark := by
  unfold requiredPhase
  rw [List.find?_map]
  have hp : ((fun f : Field => f.typeEmail) ∘ reqMark) = (fun f : Field => f.typeEmail) := by
    funext f
    simp [reqMark_typeEmail]
  rw [hp]

theorem emailCheckOk_requiredPhase (fs : List Field) :
    emailCheckOk (requiredPhase fs) = emailCheckOk fs := by
  unfold emailCheckOk
  rw [find?_typeEmail_requiredPhase]
  cases fs.find? (·.typeEmail) <;> simp [reqMark_value]

/-- `isValid` as returned by `validateForm`: the required pass and the email
pass both succeed. -/
theorem validateForm_fst (fs : List Field) :
    (validateForm fs).1 = (requiredOk fs && emailCheckOk fs) := by
  simp [validateForm, emailPhase_snd, emailCheckOk_requiredPhase]

theorem emailPhase_fst_getElem (l : List Field) (i : Nat) (f : Field)
    (h : l[i]? = some f) :
    ((emailPhase l).1)[i]? =
      some (if firstEmailIdx l = some i ∧ emailFails f = true
            then { f with flagged := true } else f) := by
  induction l generalizing i with
  | nil => simp at h
  | cons g rest ih =>
    by_cases hte : g.typeEmail = true
    · have hidx : firstEmailIdx (g :: rest) = some 0 := by
        simp [firstEmailIdx, hte]
      cases i with
      | zero =>
        simp only [List.getElem?_cons_zero, Option.some.injEq] at h
        subst h
        have hef : emailFails g = (!g.value.isEmpty && !emailRegexMatch g.value) := by
          simp only [emailFails, hte, Bool.true_and]
        by_cases hf : (!g.value.isEmpty && !emailRegexMatch g.value) = true
        · rw [hef, hf]
          simp only [emailPhase, hte, if_true, hf, if_pos rfl]
          simp [hidx]
        · rw [hef]
          simp only [emailPhase, hte, if_true]
          rw [if_neg hf]
          simp only [List.getElem?_cons_zero, Option.some.injEq]
          rw [if_neg (by rintro ⟨-, hc⟩; exact hf hc)]
      | succ j =>
        simp only [List.getElem?_cons_succ] at h
        have hne : ¬(firstEmailIdx (g :: rest) = some (j + 1) ∧ emailFails f = true) := by
          rw [hidx]
          rintro ⟨hc, -⟩
          exact absurd (Option.some.inj hc) (by omega)
        by_cases hf : (!g.value.isEmpty && !emailRegexMatch g.value) = true <;>
          simp [emailPhase, hte, hf, hne, h]
    · have hidx : firstEmailIdx (g :: rest) = (firstEmailIdx rest).map (· + 1) := by
        simp [firstEmailIdx, hte]
      cases i with
      | zero =>
        simp only [List.getElem?_cons_zero, Option.some.injEq] at h
        subst h
        have hef : emailFails g = false := by
          simp [emailFails, hte]
        simp [emailPhase, hte, hef]
      | succ j =>
        simp only [List.getElem?_cons_succ] at h
        have hiff : (firstEmailIdx (g :: rest) = some (j + 1)) ↔
            (firstEmailIdx rest = some j) := by
          rw [hidx]
          cases hr : firstEmailIdx rest with
          | none => simp
          | some k =>
            simp only [Option.map_some', Option.some.injEq]
            omega
        have := ih j h
        by_cases hc : firstEmailIdx rest = some j ∧ emailFails f = true
        · simp only [emailPhase, hte, Bool.false_eq_true, if_false,
            List.getElem?_cons_succ]
          rw [if_pos hc] at this
          rw [this, if_pos ⟨hiff.mpr hc.1, hc.2⟩]
        · simp only [emailPhase, hte, Bool.false_eq_true, if_false,
            List.getElem?_cons_succ]
          rw [if_neg hc] at this
          rw [this, if_neg (by
            rintro ⟨h1, h2⟩
            exact hc ⟨hiff.mp h1, h2⟩)]

/-- Pointwise description of the flags left by `validateForm`: the one
email field `validateForm` inspects is flagged when it fails the email
check, otherwise every field carries the mark left by the required pass. -/
theorem validateForm_getElem (fs : List Field) (i : Nat) (f : Field)
    (h : fs[i]? = some f) :
    ((validateForm fs).2)[i]? =
      some (if firstEmailIdx fs = some i ∧ emailFails f = true
            then { reqMark f with flagged := true } else reqMark f) := by
  have h1 : (requiredPhase fs)[i]? = some (reqMark f) := by
    simp [requiredPhase, List.getElem?_map, h]
  have h2 := emailPhase_fst_getElem (requiredPhase fs) i (reqMark f) h1
  rw [firstEmailIdx_requiredPhase, emailFails_reqMark] at h2
  simpa [validateForm] using h2

theorem honeypotFilled_map (fs : List Field) (m : Field → Field)
    (hn : ∀ f, (m f).name = f.name) (hv : ∀ f, (m f).value = f.value) :
    honeypotFilled (fs.map m) = honeypotFilled fs := by
  unfold honeypotFilled
  rw [List.find?_map]
  have hp : ((fun f : Field => f.name == "website_url") ∘ m) =
      (fun f : Field => f.name == "website_url") := by
    funext f
    simp [hn]
  rw [hp]
  cases fs.find? (fun f => f.name == "website_url") <;> simp [hv]

theorem honeypotFilled_emailPhase (fs : List Field) :
    honeypotFilled (emailPhase fs).1 = honeypotFilled fs := by
  induction fs with
  | nil => rfl
  | cons g rest ih =>
    by_cases hte : g.typeEmail = true
    · by_cases hf : (!g.value.isEmpty && !emailRegexMatch g.value) = true <;>
        simp only [emailPhase, hte, if_true, hf, if_pos rfl, if_neg, honeypotFilled,
          List.find?_cons] <;>
        cases hnm : g.name == "website_url" <;> simp [hnm]
    · simp only [emailPhase, hte, Bool.false_eq_true, if_false, honeypotFilled,
        List.find?_cons]
      by_cases hnm : (g.name == "website_url") = true
      · simp [hnm]
      · simp only [hnm, Bool.false_eq_true]
        simpa [honeypotFilled] using ih

/-- `validateForm` changes only border flags, so the honeypot check sees
the same names and values. -/
theorem honeypotFilled_validateForm (fs : List Field) :
    honeypotFilled (validateForm fs).2 = honeypotFilled fs := by
  show honeypotFilled (emailPhase (requiredPhase fs)).1 = honeypotFilled fs
  rw [honeypotFilled_emailPhase]
  exact honeypotFilled_map fs reqMark reqMark_name reqMark_value

/-- The required pass succeeds exactly when, in the spec's words, every
field marked required is non-empty after whitespace trimming. -/
theorem requiredOk_iff (fs : List Field) :
    requiredOk fs = true ↔ ∀ f ∈ fs, f.required = true → jsTrim f.value ≠ "" := by
  unfold requiredOk
  rw [List.all_eq_true]
  constructor
  · intro h f hf hr he
    have := h f hf
    rw [hr, he] at this
    simp only [Bool.not_true, Bool.false_or, Bool.not_eq_true'] at this
    exact absurd this (by decide)
  · intro h f hf
    by_cases hr : f.required = true
    · cases hie : (jsTrim f.value).isEmpty with
      | true => exact absurd ((String.isEmpty_iff _).mp hie) (h f hf hr)
      | false => simp [hr, hie]
    · simp only [Bool.not_eq_true] at hr
      simp [hr]

/-- If a predicate holds at most once in a list, `find?` returns any member
satisfying it. -/
theorem find?_eq_of_countP_le_one {α : Type} (p : α → Bool) (l : List α)
    (hc : l.countP p ≤ 1) (a : α) (ha : a ∈ l) (hpa : p a = true) :
    l.find? p = some a := by
  induction l with
  | nil => simp at ha
  | cons x rest ih =>
    rw [List.countP_cons] at hc
    rcases List.mem_cons.mp ha with rfl | hmem
    · rw [List.find?_cons, hpa]
    · cases hx : p x with
      | true =>
        exfalso
        have h1 : 0 < rest.countP p := List.countP_pos_iff.mpr ⟨a, hmem, hpa⟩
        rw [if_pos hx] at hc
        omega
      | false =>
        simp only [List.find?_cons, hx]
        rw [if_neg (by simp [hx])] at hc
        exact ih (by omega) hmem

/-- The email pass succeeds exactly when, in the spec's words, the
email-typed field (unique when present), if non-empty, matches the email
pattern. -/
theorem emailCheckOk_iff (fs : List Field) (hone : fs.countP (·.typeEmail) ≤ 1) :
    emailCheckOk fs = true ↔
      ∀ f ∈ fs, f.typeEmail = true → f.value ≠ "" → emailRegexMatch f.value = true := by
  unfold emailCheckOk
  constructor
  · intro h f hf hte hv
    have hfind : fs.find? (·.typeEmail) = some f :=
      find?_eq_of_countP_le_one _ fs hone f hf hte
    rw [hfind] at h
    rcases Bool.or_eq_true_iff.mp h with he | hm
    · exact absurd ((String.isEmpty_iff _).mp he) hv
    · exact hm
  · intro h
    cases hfind : fs.find? (·.typeEmail) with
    | none => rfl
    | some f =>
      have hmem := List.mem_of_find?_eq_some hfind
      have hte : f.typeEmail = true := List.find?_some hfind
      by_cases hv : f.value = ""
      · show (f.value.isEmpty || emailRegexMatch f.value) = true
        rw [hv]
        decide
      · simp [h f hmem hte hv]

/-! ## Claim theorems -/

/-- C2 (amended).  Validation succeeds iff every required field is
non-empty after whitespace trimming and the (unique) email-typed field's
value, IF non-empty, matches the pattern; the inputs "a@b", "a.com" and
"a@@b.com" fail the pattern; a failing submit performs zero network calls;
every failing field is visually flagged; every passing REQUIRED field has
its flag cleared (a passing non-required field keeps its previous flag). -/
theorem C2_validation :
    (∀ fs : List Field, fs.countP (·.typeEmail) ≤ 1 →
      ((validateForm fs).1 = true ↔
        ((∀ f ∈ fs, f.required = true → jsTrim f.value ≠ "") ∧
         (∀ f ∈ fs, f.typeEmail = true → f.value ≠ "" → emailRegexMatch f.value = true)))) ∧
    (emailRegexMatch "a@b" = false ∧ emailRegexMatch "a.com" = false ∧
     emailRegexMatch "a@@b.com" = false) ∧
    (∀ (env : PageEnv) (st : FormPage) (net : FetchResult),
      (validateForm st.fields).1 = false →
      (handleSubmit env st net).2.networkCalls = 0) ∧
    (∀ (fs : List Field) (i : Nat) (f : Field), fs[i]? = some f →
      (fieldFails fs i f = true →
        (((validateForm fs).2)[i]?).map Field.flagged = some true) ∧
      (f.required = true → fieldFails fs i f = false →
        (((validateForm fs).2)[i]?).map Field.flagged = some false)) := by
  refine ⟨?_, by decide, ?_, ?_⟩
  · intro fs hone
    rw [validateForm_fst, Bool.and_eq_true, requiredOk_iff, emailCheckOk_iff fs hone]
  · intro env st net h
    simp [handleSubmit, h]
  · intro fs i f h
    have hpt := validateForm_getElem fs i f h
    constructor
    · intro hff
      rw [hpt]
      by_cases hc : firstEmailIdx fs = some i ∧ emailFails f = true
      · rw [if_pos hc]
        rfl
      · rw [if_neg hc]
        have hrf : reqFails f = true := by
          unfold fieldFails at hff
          rcases Bool.or_eq_true_iff.mp hff with h1 | h1
          · exact h1
          · exfalso
            rcases Bool.and_eq_true_iff.mp h1 with ⟨hd, he⟩
            exact hc ⟨of_decide_eq_true hd, he⟩
        unfold reqFails at hrf
        rcases Bool.and_eq_true_iff.mp hrf with ⟨hr, he⟩
        simp [reqMark, hr, he]
    · intro hreq hff
      rw [hpt]
      unfold fieldFails at hff
      have h1 : reqFails f = false := by
        cases hq : reqFails f
        · rfl
        · rw [hq, Bool.true_or] at hff
          cases hff
      have h2 : (decide (firstEmailIdx fs = some i) && emailFails f) = false := by
        cases hq : (decide (firstEmailIdx fs = some i) && emailFails f)
        · rfl
        · rw [hq, Bool.or_true] at hff
          cases hff
      have hc : ¬(firstEmailIdx fs = some i ∧ emailFails f = true) := by
        rintro ⟨he1, he2⟩
        simp [he1, he2] at h2
      rw [if_neg hc]
      have hne : (jsTrim f.value).isEmpty = false := by
        unfold reqFails at h1
        rwa [hreq, Bool.true_and] at h1
      simp [reqMark, hreq, hne]

/-- C2 witness: the amended validation equivalence at a concrete two-field
form, and the flagging behavior at a concrete failing required field. -/
theorem C2_validation_witness :
    ((validateForm [sampleName, sampleEmptyEmail]).1 = true ↔
      ((∀ f ∈ [sampleName, sampleEmptyEmail], f.required = true → jsTrim f.value ≠ "") ∧
       (∀ f ∈ [sampleName, sampleEmptyEmail], f.typeEmail = true → f.value ≠ "" →
          emailRegexMatch f.value = true))) ∧
    ((fieldFails [sampleEmptyReq] 0 sampleEmptyReq = true →
        (((validateForm [sampleEmptyReq]).2)[0]?).map Field.flagged = some true) ∧
     (sampleEmptyReq.required = true → fieldFails [sampleEmptyReq] 0 sampleEmptyReq = false →
        (((validateForm [sampleEmptyReq]).2)[0]?).map Field.flagged = some false)) :=
  ⟨C2_validation.1 [sampleName, sampleEmptyEmail] (by decide),
   C2_validation.2.2.2 [sampleEmptyReq] 0 sampleEmptyReq (by decide)⟩

/-- C2 counterexample to the claim as stated: on a form whose (non-required)
email field is empty but still flagged from an earlier attempt, validation
succeeds although the email value does not match the pattern (refuting the
unguarded "iff ... matches"), and the passing email field's flag is NOT
cleared (refuting "each passing field has its flag cleared"). -/
theorem C2_counterexample :
    (validateForm [sampleName, sampleStaleEmail]).1 = true ∧
    emailRegexMatch sampleStaleEmail.value = false ∧
    sampleStaleEmail.flagged = true ∧
    (validateForm [sampleName, sampleStaleEmail]).2 = [sampleName, sampleStaleEmail] := by
  decide

/-- C1 (amended).  With a non-empty honeypot the submit performs zero
network calls regardless of the other fields' validity; and it is fully
silent (state unchanged, no alert) provided validation passes and leaves
every flag as it was — when validation fails, the failing fields are
visibly flagged BEFORE the honeypot is consulted, which is user-visible
feedback. -/
theorem C1_honeypot_silent :
    (∀ (env : PageEnv) (st : FormPage) (net : FetchResult),
       honeypotFilled st.fields = true →
       (handleSubmit env st net).2.networkCalls = 0) ∧
    (∀ (env : PageEnv) (st : FormPage) (net : FetchResult),
       honeypotFilled st.fields = true →
       (validateForm st.fields).1 = true →
       (validateForm st.fields).2 = st.fields →
       handleSubmit env st net = (st, ⟨0, false⟩)) := by
  constructor
  · intro env st net h
    cases hv : (validateForm st.fields).1 with
    | false => simp [handleSubmit, hv]
    | true => simp [handleSubmit, hv, honeypotFilled_validateForm, h]
  · intro env st net h hv hfe
    simp [handleSubmit, hv, honeypotFilled_validateForm, h, hfe]

/-- C1 witness: the honeypot page makes zero network calls, and the
quiet bot page is rejected with no observable change at all. -/
theorem C1_honeypot_silent_witness :
    (handleSubmit sampleEnv sampleBotPage (FetchResult.resp 500)).2.networkCalls = 0 ∧
    handleSubmit sampleEnv sampleQuietBotPage (FetchResult.resp 200) =
      (sampleQuietBotPage, ⟨0, false⟩) :=
  ⟨C1_honeypot_silent.1 sampleEnv sampleBotPage (FetchResult.resp 500) (by decide),
   C1_honeypot_silent.2 sampleEnv sampleQuietBotPage (FetchResult.resp 200)
     (by decide) (by decide) (by decide)⟩

/-- C1 counterexample to the claim as stated: on a submit with a filled
honeypot AND an empty required field, no network call happens, but the
required field is visibly flagged — user-visible feedback, contradicting
"produces no user-visible feedback regardless of the validity of the other
fields". -/
theorem C1_counterexample :
    honeypotFilled sampleBotPage.fields = true ∧
    (handleSubmit sampleEnv sampleBotPage (FetchResult.resp 200)).2.networkCalls = 0 ∧
    (handleSubmit sampleEnv sampleBotPage (FetchResult.resp 200)).1.fields.map Field.flagged ≠
      sampleBotPage.fields.map Field.flagged := by
  decide

theorem resetFields_mem (fs : List Field) :
    ∀ f ∈ resetFields fs, f.value = f.defaultValue := by
  intro f hf
  rcases List.mem_map.mp hf with ⟨a, _, rfl⟩
  rfl

theorem resetCardsToDental_mem_iff (cs : List Card) :
    ∀ c ∈ resetCardsToDental cs, (c.active = true ↔ c.dataType = some "dental") := by
  intro c hc
  rcases List.mem_map.mp hc with ⟨a, _, rfl⟩
  simp

/-- C3.  For every submit attempt that reaches the network call (validation
passed, honeypot empty, the submit button / success banner / hidden input
present): exactly one network call is made; a 2xx response shows the
success message, resets every field to its default value, resets the
business-type value and the active cards to "dental", and raises no alert;
a non-2xx response or transport error raises the blocking alert and leaves
the page state otherwise as validation left it; in every case the submit
control ends up re-enabled. -/
theorem C3_submit_outcome :
    ∀ (env : PageEnv) (st : FormPage) (net : FetchResult),
      env.submitButtonPresent = true → env.successMsgPresent = true →
      env.businessTypeInputPresent = true →
      (validateForm st.fields).1 = true → honeypotFilled st.fields = false →
      (handleSubmit env st net).2.networkCalls = 1 ∧
      (net.ok = true →
        (handleSubmit env st net).1.successShown = true ∧
        (∀ f ∈ (handleSubmit env st net).1.fields, f.value = f.defaultValue) ∧
        (handleSubmit env st net).1.businessTypeValue = "dental" ∧
        (∀ c ∈ (handleSubmit env st net).1.cards,
          (c.active = true ↔ c.dataType = some "dental")) ∧
        (handleSubmit env st net).2.alerted = false) ∧
      (net.ok = false →
        (handleSubmit env st net).2.alerted = true ∧
        (handleSubmit env st net).1.successShown = st.successShown ∧
        (handleSubmit env st net).1.cards = st.cards ∧
        (handleSubmit env st net).1.businessTypeValue = st.businessTypeValue) ∧
      (handleSubmit env st net).1.submitDisabled = false := by
  intro env st net hb hs hbt hv hh
  have hh2 : honeypotFilled (validateForm st.fields).2 = false := by
    rw [honeypotFilled_validateForm]
    exact hh
  cases hok : net.ok with
  | true =>
    refine ⟨by simp [handleSubmit, hv, hh2, hb, hs, hbt, hok], ?_,
           fun hcon => absurd hcon (by decide),
           by simp [handleSubmit, hv, hh2, hb, hs, hbt, hok]⟩
    intro _
    refine ⟨by simp [handleSubmit, hv, hh2, hb, hs, hbt, hok], ?_,
           by simp [handleSubmit, hv, hh2, hb, hbt, hok], ?_,
           by simp [handleSubmit, hv, hh2, hb, hs, hbt, hok]⟩
    · intro f hf
      have he : (handleSubmit env st net).1.fields =
          resetFields (validateForm st.fields).2 := by
        simp [handleSubmit, hv, hh2, hb, hs, hbt, hok]
      rw [he] at hf
      exact resetFields_mem _ f hf
    · intro c hc
      have he : (handleSubmit env st net).1.cards = resetCardsToDental st.cards := by
        simp [handleSubmit, hv, hh2, hb, hs, hbt, hok]
      rw [he] at hc
      exact resetCardsToDental_mem_iff _ c hc
  | false =>
    refine ⟨by simp [handleSubmit, hv, hh2, hb, hs, hbt, hok],
           fun hcon => absurd hcon (by decide),
           fun _ => ⟨by simp [handleSubmit, hv, hh2, hb, hs, hbt, hok],
                     by simp [handleSubmit, hv, hh2, hb, hs, hbt, hok],
                     by simp [handleSubmit, hv, hh2, hb, hs, hbt, hok],
                     by simp [handleSubmit, hv, hh2, hb, hs, hbt, hok]⟩,
           by simp [handleSubmit, hv, hh2, hb, hs, hbt, hok]⟩

/-- C3 witness: a concrete valid submit with a 200 response makes one
network call and re-enables the submit control. -/
theorem C3_submit_outcome_witness :
    (handleSubmit sampleEnv sampleValidPage (FetchResult.resp 200)).2.networkCalls = 1 ∧
    (handleSubmit sampleEnv sampleValidPage (FetchResult.resp 200)).1.submitDisabled = false :=
  ⟨(C3_submit_outcome sampleEnv sampleValidPage (FetchResult.resp 200)
      rfl rfl rfl (by decide) (by decide)).1,
   (C3_submit_outcome sampleEnv sampleValidPage (FetchResult.resp 200)
      rfl rfl rfl (by decide) (by decide)).2.2.2⟩

/-! ## Lemmas about the modal state machine -/

theorem modalKeydown_latch_fields (t : Elem) (k : MKey) (sh : Bool) (st : MState) :
    (modalKeydown t k sh st).iframeSrcSet = st.iframeSrcSet ∧
    (modalKeydown t k sh st).srcAssignments = st.srcAssignments ∧
    (modalKeydown t k sh st).iframeSrc = st.iframeSrc := by
  unfold modalKeydown closeModal
  dsimp only
  repeat' split
  all_goals exact ⟨rfl, rfl, rfl⟩

theorem modalStep_latched (t : Elem) (ip : Bool) (st : MState) (ev : MEvent)
    (h : st.iframeSrcSet = true) :
    (modalStep t ip st ev).iframeSrcSet = true ∧
    (modalStep t ip st ev).srcAssignments = st.srcAssignments ∧
    (modalStep t ip st ev).iframeSrc = st.iframeSrc := by
  cases ev with
  | openEv cs =>
    simp only [modalStep, openModal, h, Bool.not_true, Bool.false_and,
      Bool.false_eq_true, if_false]
    cases cs.head? <;> exact ⟨rfl, rfl, rfl⟩
  | closeEv => exact ⟨h, rfl, rfl⟩
  | keyEv k sh =>
    have hk := modalKeydown_latch_fields t k sh st
    exact ⟨hk.1.trans h, hk.2.1, hk.2.2⟩
  | focusSet e => exact ⟨h, rfl, rfl⟩

theorem modalStep_open_unlatched (t : Elem) (st : MState) (cs : List Elem)
    (h : st.iframeSrcSet = false) :
    (modalStep t true st (MEvent.openEv cs)).iframeSrcSet = true ∧
    (modalStep t true st (MEvent.openEv cs)).srcAssignments = st.srcAssignments + 1 ∧
    (modalStep t true st (MEvent.openEv cs)).iframeSrc = some calendlyUrl := by
  simp only [modalStep, openModal, h, Bool.not_false, Bool.true_and, if_true]
  cases cs.head? <;> exact ⟨rfl, rfl, rfl⟩

theorem modalStep_nonopen_unlatched (t : Elem) (ip : Bool) (st : MState) (ev : MEvent)
    (h : st.iframeSrcSet = false) (hev : ev.isOpen = false) :
    (modalStep t ip st ev).iframeSrcSet = false ∧
    (modalStep t ip st ev).srcAssignments = st.srcAssignments ∧
    (modalStep t ip st ev).iframeSrc = st.iframeSrc := by
  cases ev with
  | openEv cs => cases hev
  | closeEv => exact ⟨h, rfl, rfl⟩
  | keyEv k sh =>
    have hk := modalKeydown_latch_fields t k sh st
    exact ⟨hk.1.trans h, hk.2.1, hk.2.2⟩
  | focusSet e => exact ⟨h, rfl, rfl⟩

theorem modalRun_latched (t : Elem) (ip : Bool) (evs : List MEvent) :
    ∀ st : MState, st.iframeSrcSet = true →
      (modalRun t ip st evs).iframeSrcSet = true ∧
      (modalRun t ip st evs).srcAssignments = st.srcAssignments ∧
      (modalRun t ip st evs).iframeSrc = st.iframeSrc := by
  induction evs with
  | nil => exact fun st h => ⟨h, rfl, rfl⟩
  | cons e rest ih =>
    intro st h
    have hs := modalStep_latched t ip st e h
    have hr := ih (modalStep t ip st e) hs.1
    exact ⟨hr.1, hr.2.1.trans hs.2.1, hr.2.2.trans hs.2.2⟩

theorem modalRun_count (t : Elem) (evs : List MEvent) :
    ∀ st : MState, st.iframeSrcSet = false → st.srcAssignments = 0 →
      ((modalRun t true st evs).srcAssignments =
        if evs.any MEvent.isOpen then 1 else 0) ∧
      (evs.any MEvent.isOpen = true →
        (modalRun t true st evs).iframeSrc = some calendlyUrl) := by
  induction evs with
  | nil =>
    intro st h1 h2
    exact ⟨by simpa using h2, fun hc => by simp at hc⟩
  | cons e rest ih =>
    intro st h1 h2
    cases he : e.isOpen with
    | true =>
      cases e with
      | openEv cs =>
        have hs := modalStep_open_unlatched t st cs h1
        have hr := modalRun_latched t true rest (modalStep t true st (MEvent.openEv cs)) hs.1
        have hrs : modalRun t true st (MEvent.openEv cs :: rest) =
            modalRun t true (modalStep t true st (MEvent.openEv cs)) rest := rfl
        constructor
        · rw [hrs, hr.2.1, hs.2.1, h2]
          simp [List.any_cons, MEvent.isOpen]
        · intro _
          rw [hrs, hr.2.2, hs.2.2]
      | closeEv => cases he
      | keyEv k sh => cases he
      | focusSet x => cases he
    | false =>
      have hs := modalStep_nonopen_unlatched t true st e h1 he
      have hr := ih (modalStep t true st e) hs.1 (hs.2.1.trans h2)
      have hrs : modalRun t true st (e :: rest) =
          modalRun t true (modalStep t true st e) rest := rfl
      constructor
      · rw [hrs, hr.1]
        simp [List.any_cons, he]
      · intro hany
        rw [List.any_cons, he, Bool.false_or] at hany
        rw [hrs]
        exact hr.2 hany

/-- C4 (amended).  After any event sequence ending with a close, focus is on
the trigger element — the modal's close handler always refocuses the
trigger, not the element that happened to be focused before the most
recent open. -/
theorem C4_close_focuses_trigger :
    ∀ (trigger : Elem) (ip : Bool) (st : MState) (evs : List MEvent),
      (modalRun trigger ip st (evs ++ [MEvent.closeEv])).focused = trigger := by
  intro t ip st evs
  unfold modalRun
  rw [List.foldl_append]
  rfl

/-- C4 counterexample to the claim as stated: element 9 is focused
immediately before the open, but after the close focus is on the trigger
(element 1), not on element 9. -/
theorem C4_counterexample :
    (modalRun 1 true (modalInit 0) [MEvent.focusSet 9]).focused = 9 ∧
    (modalRun 1 true (modalInit 0)
        [MEvent.focusSet 9, MEvent.openEv [7, 8], MEvent.closeEv]).focused = 1 ∧
    (1 : Elem) ≠ 9 := by
  decide

/-- C5.  Opening recomputes `focusableElements` as the freshly queried
content and moves focus to its first element (no-op when it is empty);
while open, Tab with focus on the last focusable element wraps focus to the
first, and Shift+Tab with focus on the first wraps to the last. -/
theorem C5_focus_wrap :
    (∀ (t : Elem) (ip : Bool) (st : MState) (cs : List Elem),
       (modalStep t ip st (MEvent.openEv cs)).focusableElements = cs ∧
       (modalStep t ip st (MEvent.openEv cs)).focused = cs.head?.getD st.focused) ∧
    (∀ (t : Elem) (ip : Bool) (st : MState),
       st.isModalOpen = true →
       some st.focused = st.focusableElements.getLast? →
       some (modalStep t ip st (MEvent.keyEv MKey.tab false)).focused =
         st.focusableElements.head?) ∧
    (∀ (t : Elem) (ip : Bool) (st : MState),
       st.isModalOpen = true →
       some st.focused = st.focusableElements.head? →
       some (modalStep t ip st (MEvent.keyEv MKey.tab true)).focused =
         st.focusableElements.getLast?) := by
  refine ⟨?_, ?_, ?_⟩
  · intro t ip st cs
    cases hh : cs.head? <;>
      constructor <;>
        simp [modalStep, openModal, hh] <;>
          split <;> simp_all
  · intro t ip st hopen hlast
    cases hfe : st.focusableElements with
    | nil => rw [hfe] at hlast; cases hlast
    | cons a l =>
      rw [hfe] at hlast
      simp [modalStep, modalKeydown, hopen, hfe, hlast]
  · intro t ip st hopen hfirst
    cases hfe : st.focusableElements with
    | nil => rw [hfe] at hfirst; cases hfirst
    | cons a l =>
      rw [hfe] at hfirst
      simp [modalStep, modalKeydown, hopen, hfe, hfirst, List.getLast?_cons]

/-- C5 witness: on a concrete open modal with focusables `[3, 4]`, Tab at
element 4 wraps to 3 and Shift+Tab at element 3 wraps to 4. -/
theorem C5_focus_wrap_witness :
    (some (modalStep 1 true sampleModalAtLast (MEvent.keyEv MKey.tab false)).focused =
      sampleModalAtLast.focusableElements.head?) ∧
    (some (modalStep 1 true sampleModalAtFirst (MEvent.keyEv MKey.tab true)).focused =
      sampleModalAtFirst.focusableElements.getLast?) :=
  ⟨C5_focus_wrap.2.1 1 true sampleModalAtLast rfl (by decide),
   C5_focus_wrap.2.2 1 true sampleModalAtFirst rfl (by decide)⟩

/-- C6.  The lazy-load latch is monotonic (once true it stays true across
every event), and starting from the initial modal state the iframe `src` is
assigned exactly once across any event sequence — once iff the sequence
contains an open, and then it holds the Calendly URL. -/
theorem C6_iframe_once :
    (∀ (t : Elem) (ip : Bool) (st : MState) (ev : MEvent),
       st.iframeSrcSet = true → (modalStep t ip st ev).iframeSrcSet = true) ∧
    (∀ (t f0 : Elem) (evs : List MEvent),
       (modalRun t true (modalInit f0) evs).srcAssignments =
         if evs.any MEvent.isOpen then 1 else 0) ∧
    (∀ (t f0 : Elem) (evs : List MEvent),
       evs.any MEvent.isOpen = true →
       (modalRun t true (modalInit f0) evs).iframeSrc = some calendlyUrl) :=
  ⟨fun t ip st ev h => (modalStep_latched t ip st ev h).1,
   fun t f0 evs => (modalRun_count t evs (modalInit f0) rfl rfl).1,
   fun t f0 evs h => (modalRun_count t evs (modalInit f0) rfl rfl).2 h⟩

/-- C6 witness: the latch stays set across a close, and after
open-close-open the iframe `src` is the Calendly URL (assigned on the first
open only). -/
theorem C6_iframe_once_witness :
    (modalStep 1 true sampleModalAtLast MEvent.closeEv).iframeSrcSet = true ∧
    (modalRun 1 true (modalInit 0)
        [MEvent.openEv [7], MEvent.closeEv, MEvent.openEv [7]]).iframeSrc =
      some calendlyUrl :=
  ⟨C6_iframe_once.1 1 true sampleModalAtLast MEvent.closeEv rfl,
   C6_iframe_once.2.2 1 0 [MEvent.openEv [7], MEvent.closeEv, MEvent.openEv [7]]
     (by decide)⟩

/-- C7 (amended).  A click on a nav link while the menu is open closes it
iff the viewport width is AT MOST 767 (the code tests `width <= 767`), i.e.
below 768; at larger widths the menu stays open. -/
theorem C7_navlink_close :
    ∀ (st : NavState) (w : Nat), st.isOpen = true →
      ((navLinkClick st w).isOpen = false ↔ w ≤ 767) := by
  intro st w hopen
  unfold navLinkClick
  by_cases hw : w ≤ 767
  · simp [hw, closeMenu]
  · simp [hw, hopen]

/-- C7 witness: at width 500 the click closes the open menu. -/
theorem C7_navlink_close_witness :
    ((navLinkClick (openMenu navInit) 500).isOpen = false ↔ 500 ≤ 767) :=
  C7_navlink_close (openMenu navInit) 500 rfl

/-- C7 counterexample to the claim as stated: at viewport width exactly 767
— which is not below 767 — the click handler still closes the open menu. -/
theorem C7_counterexample :
    (navLinkClick (openMenu navInit) 767).isOpen = false ∧ ¬(767 < 767) := by
  decide

/-! ## Lemmas about the business-type selector -/

theorem cardIdent_eq_of_dataType {c d : Card} (h : c.dataType = d.dataType) :
    cardIdent c = cardIdent d := by
  unfold cardIdent
  rw [h]

theorem clearActive_length (cs : List Card) : (clearActive cs).length = cs.length := by
  simp [clearActive]

theorem setActiveAt_length (cs : List Card) (i : Nat) :
    (setActiveAt cs i).length = cs.length := by
  induction cs generalizing i with
  | nil => rfl
  | cons c rest ih =>
    cases i with
    | zero => rfl
    | succ n => simpa [setActiveAt] using ih n

theorem activeCount_clearActive (cs : List Card) : activeCount (clearActive cs) = 0 := by
  induction cs with
  | nil => rfl
  | cons c rest ih =>
    simp only [clearActive, List.map_cons, activeCount, List.countP_cons] at *
    simp [ih]

theorem mem_clearActive_active_false (cs : List Card) :
    ∀ c ∈ clearActive cs, c.active = false := by
  intro c hc
  rcases List.mem_map.mp hc with ⟨a, _, rfl⟩
  rfl

theorem activeCount_setActiveAt (cs : List Card) (i : Nat) (hi : i < cs.length)
    (h0 : activeCount cs = 0) : activeCount (setActiveAt cs i) = 1 := by
  induction cs generalizing i with
  | nil => simp at hi
  | cons c rest ih =>
    simp only [activeCount, List.countP_cons] at h0
    have hc : c.active = false := by
      cases ha : c.active
      · rfl
      · rw [ha] at h0; simp at h0
    have hr : activeCount rest = 0 := by
      rw [hc] at h0; simpa [activeCount] using h0
    cases i with
    | zero =>
      show activeCount ({ c with active := true } :: rest) = 1
      simp only [activeCount, List.countP_cons] at hr ⊢
      simp [hr]
    | succ n =>
      have := ih n (by simpa using hi) hr
      simp [setActiveAt, activeCount, List.countP_cons, hc] at *
      exact this

theorem mem_setActiveAt_clear (cs : List Card) (i : Nat) :
    ∀ c ∈ setActiveAt (clearActive cs) i, c.active = true →
      ∀ d, cs[i]? = some d → c.dataType = d.dataType := by
  induction cs generalizing i with
  | nil => intro c hc; simp [clearActive, setActiveAt] at hc
  | cons g rest ih =>
    cases i with
    | zero =>
      intro c hc ha d hd
      simp only [List.getElem?_cons_zero, Option.some.injEq] at hd
      subst hd
      rcases List.mem_cons.mp hc with rfl | hmem
      · rfl
      · have := mem_clearActive_active_false rest c hmem
        rw [this] at ha
        cases ha
    | succ n =>
      intro c hc ha d hd
      simp only [List.getElem?_cons_succ] at hd
      rcases List.mem_cons.mp hc with rfl | hmem
      · cases ha
      · exact ih n c hmem ha d hd

theorem dentalCount_clearActive (cs : List Card) :
    dentalCount (clearActive cs) = dentalCount cs := by
  induction cs with
  | nil => rfl
  | cons c rest ih =>
    simp only [clearActive, List.map_cons, dentalCount, List.countP_cons] at *
    rw [ih]

theorem dentalCount_setActiveAt (cs : List Card) (i : Nat) :
    dentalCount (setActiveAt cs i) = dentalCount cs := by
  induction cs generalizing i with
  | nil => rfl
  | cons c rest ih =>
    cases i with
    | zero => simp [setActiveAt, dentalCount, List.countP_cons]
    | succ n =>
      simp only [setActiveAt, dentalCount, List.countP_cons] at *
      rw [ih n]

theorem select_spec (st : SelState) (i : Nat) (hi : i < st.cards.length) :
    activeCount (select st i).cards = 1 ∧
    (∀ c ∈ (select st i).cards, c.active = true → (select st i).hidden = cardIdent c) ∧
    (select st i).cards.length = st.cards.length ∧
    dentalCount (select st i).cards = dentalCount st.cards := by
  obtain ⟨d, hd⟩ : ∃ d, st.cards[i]? = some d := by
    rw [List.getElem?_eq_getElem hi]
    exact ⟨_, rfl⟩
  have hhid : (select st i).hidden = cardIdent d := by
    simp [select, hd]
  refine ⟨?_, ?_, ?_, ?_⟩
  · exact activeCount_setActiveAt (clearActive st.cards) i
      (by rw [clearActive_length]; exact hi) (activeCount_clearActive st.cards)
  · intro c hc ha
    have hdt := mem_setActiveAt_clear st.cards i c hc ha d hd
    rw [hhid]
    exact (cardIdent_eq_of_dataType hdt).symm
  · show (setActiveAt (clearActive st.cards) i).length = st.cards.length
    rw [setActiveAt_length, clearActive_length]
  · show dentalCount (setActiveAt (clearActive st.cards) i) = dentalCount st.cards
    rw [dentalCount_setActiveAt, dentalCount_clearActive]

theorem runSelect_inv (seq : List Nat) :
    ∀ st : SelState,
      (∀ i ∈ seq, i < st.cards.length) →
      activeCount st.cards = 1 →
      (∀ c ∈ st.cards, c.active = true → st.hidden = cardIdent c) →
      activeCount (runSelect st seq).cards = 1 ∧
      (∀ c ∈ (runSelect st seq).cards, c.active = true →
        (runSelect st seq).hidden = cardIdent c) ∧
      (runSelect st seq).cards.length = st.cards.length ∧
      dentalCount (runSelect st seq).cards = dentalCount st.cards := by
  induction seq with
  | nil => exact fun st _ h1 h2 => ⟨h1, h2, rfl, rfl⟩
  | cons i rest ih =>
    intro st hrange h1 h2
    have hi : i < st.cards.length := hrange i (List.mem_cons_self i rest)
    have hs := select_spec st i hi
    have hrest : ∀ j ∈ rest, j < (select st i).cards.length := by
      intro j hj
      rw [hs.2.2.1]
      exact hrange j (List.mem_cons_of_mem i hj)
    have hrun : runSelect st (i :: rest) = runSelect (select st i) rest := rfl
    have := ih (select st i) hrest hs.1 hs.2.1
    rw [hrun]
    exact ⟨this.1, this.2.1, this.2.2.1.trans hs.2.2.1, this.2.2.2.trans hs.2.2.2⟩

theorem selInit_cards_length (ids : List (Option String)) :
    (selInit ids).cards.length = ids.length := by
  simp [selInit]

theorem activeCount_selInit (ids : List (Option String)) :
    activeCount (selInit ids).cards =
      ids.countP (fun d => decide (d = some "dental")) := by
  unfold activeCount selInit
  rw [List.countP_map]
  rfl

theorem mem_selInit_active (ids : List (Option String)) :
    ∀ c ∈ (selInit ids).cards, c.active = true → cardIdent c = "dental" := by
  intro c hc ha
  rcases List.mem_map.mp hc with ⟨d, _, rfl⟩
  have : d = some "dental" := of_decide_eq_true ha
  subst this
  rfl

theorem activeCount_resetCardsToDental (cs : List Card) :
    activeCount (resetCardsToDental cs) = dentalCount cs := by
  unfold activeCount resetCardsToDental dentalCount
  rw [List.countP_map]
  rfl

theorem mem_resetCardsToDental_active (cs : List Card) :
    ∀ c ∈ resetCardsToDental cs, c.active = true → cardIdent c = "dental" := by
  intro c hc ha
  rcases List.mem_map.mp hc with ⟨a, _, rfl⟩
  have : a.dataType = some "dental" := of_decide_eq_true ha
  simp [cardIdent, this]

/-- C8.  Over the spec-modelled initial markup (hidden field "dental",
exactly one card carrying identifier "dental", marked active):
after any sequence of in-range select calls exactly one card is active and
the hidden field equals that card's identifier (with the "dental" fallback
for a card without one); with zero calls both the active card's identifier
and the hidden field are "dental"; after the successful-submit card reset,
again exactly one card — the "dental" one — is active; and a successful
submit from a page carrying the selector's cards resets BOTH the hidden
business-type value to "dental" and the cards so that exactly the "dental"
card is active. -/
theorem C8_selector :
    ∀ (ids : List (Option String)) (seq : List Nat),
      ids.countP (fun d => decide (d = some "dental")) = 1 →
      (∀ i ∈ seq, i < ids.length) →
      (activeCount (runSelect (selInit ids) seq).cards = 1 ∧
       (∀ c ∈ (runSelect (selInit ids) seq).cards, c.active = true →
          (runSelect (selInit ids) seq).hidden = cardIdent c) ∧
       (seq = [] → (runSelect (selInit ids) seq).hidden = "dental" ∧
          ∀ c ∈ (runSelect (selInit ids) seq).cards, c.active = true →
            cardIdent c = "dental") ∧
       (activeCount (resetCardsToDental (runSelect (selInit ids) seq).cards) = 1 ∧
        ∀ c ∈ resetCardsToDental (runSelect (selInit ids) seq).cards, c.active = true →
          cardIdent c = "dental") ∧
       (∀ (env : PageEnv) (st : FormPage) (net : FetchResult),
          env.businessTypeInputPresent = true →
          st.cards = (runSelect (selInit ids) seq).cards →
          (validateForm st.fields).1 = true → honeypotFilled st.fields = false →
          net.ok = true →
          (handleSubmit env st net).1.businessTypeValue = "dental" ∧
          (handleSubmit env st net).1.cards =
            resetCardsToDental (runSelect (selInit ids) seq).cards ∧
          activeCount (handleSubmit env st net).1.cards = 1 ∧
          (∀ c ∈ (handleSubmit env st net).1.cards, c.active = true →
            cardIdent c = "dental"))) := by
  intro ids seq hone hrange
  have h0a : activeCount (selInit ids).cards = 1 := by
    rw [activeCount_selInit]
    exact hone
  have h0m : ∀ c ∈ (selInit ids).cards, c.active = true →
      (selInit ids).hidden = cardIdent c := by
    intro c hc ha
    exact (mem_selInit_active ids c hc ha).symm
  have hrange' : ∀ i ∈ seq, i < (selInit ids).cards.length := by
    rw [selInit_cards_length]
    exact hrange
  obtain ⟨ha, hm, hlen, hd⟩ := runSelect_inv seq (selInit ids) hrange' h0a h0m
  have hresetCount :
      activeCount (resetCardsToDental (runSelect (selInit ids) seq).cards) = 1 := by
    rw [activeCount_resetCardsToDental, hd]
    show dentalCount (selInit ids).cards = 1
    unfold dentalCount selInit
    rw [List.countP_map]
    exact hone
  refine ⟨ha, hm, ?_, ⟨hresetCount, mem_resetCardsToDental_active _⟩, ?_⟩
  · rintro rfl
    exact ⟨rfl, mem_selInit_active ids⟩
  · intro env st net hbt hcards hv hh hok
    have hh2 : honeypotFilled (validateForm st.fields).2 = false := by
      rw [honeypotFilled_validateForm]
      exact hh
    have hcards' : (handleSubmit env st net).1.cards =
        resetCardsToDental (runSelect (selInit ids) seq).cards := by
      rw [← hcards]
      cases hsb : env.submitButtonPresent <;>
        cases hsm : env.successMsgPresent <;>
          simp [handleSubmit, hv, hh2, hok, hbt, hsb, hsm]
    have hbtv : (handleSubmit env st net).1.businessTypeValue = "dental" := by
      cases hsb : env.submitButtonPresent <;>
        cases hsm : env.successMsgPresent <;>
          simp [handleSubmit, hv, hh2, hok, hbt, hsb, hsm]
    refine ⟨hbtv, hcards', ?_, ?_⟩
    · rw [hcards']
      exact hresetCount
    · intro c hc
      rw [hcards'] at hc
      exact mem_resetCardsToDental_active _ c hc

/-- C8 witness: two concrete cards, clicks on the second then the first,
the post-submit card reset, and a concrete successful submit resetting the
hidden business-type value to "dental". -/
theorem C8_selector_witness :
    activeCount (runSelect (selInit [some "dental", some "law"]) [1, 0]).cards = 1 ∧
    activeCount (resetCardsToDental
      (runSelect (selInit [some "dental", some "law"]) [1, 0]).cards) = 1 ∧
    (handleSubmit sampleEnv sampleSelectorPage (FetchResult.resp 200)).1.businessTypeValue =
      "dental" :=
  ⟨(C8_selector [some "dental", some "law"] [1, 0] (by decide) (by decide)).1,
   (C8_selector [some "dental", some "law"] [1, 0] (by decide) (by decide)).2.2.2.1.1,
   ((C8_selector [some "dental", some "law"] [1, 0] (by decide) (by decide)).2.2.2.2
      sampleEnv sampleSelectorPage (FetchResult.resp 200) rfl rfl
      (by decide) (by decide) (by decide)).1⟩

/-- C9.  Initialization is a family of guarded no-ops: every `init*`
function is total (each lookup is guarded or optional-chained), a missing
mount point leaves exactly its own component unwired, and each component's
wiring depends only on its own mount points, so the absence of one mount
point cannot disable any other component. -/
theorem C9_guarded_init :
    ∀ vt : ViewTree,
      ((vt.preloader = false → (initAll vt).preloaderOn = false) ∧
       (vt.navbar = false → (initAll vt).stickyOn = false) ∧
       (vt.navToggle = false ∨ vt.navMenu = false → (initAll vt).mobileNavOn = false) ∧
       (vt.businessTypeInput = false ∨ vt.businessTypeCardCount = 0 →
         (initAll vt).selectorOn = false) ∧
       (vt.contactForm = false → (initAll vt).contactFormOn = false) ∧
       (vt.calendlyTrigger = false ∨ vt.calendlyModal = false →
         (initAll vt).modalOn = false)) ∧
      (∀ vt' : ViewTree,
       (vt'.preloader = vt.preloader →
         (initAll vt').preloaderOn = (initAll vt).preloaderOn) ∧
       (vt'.navbar = vt.navbar → (initAll vt').stickyOn = (initAll vt).stickyOn) ∧
       (vt'.navToggle = vt.navToggle → vt'.navMenu = vt.navMenu →
         (initAll vt').mobileNavOn = (initAll vt).mobileNavOn) ∧
       (vt'.businessTypeInput = vt.businessTypeInput →
        vt'.businessTypeCardCount = vt.businessTypeCardCount →
         (initAll vt').selectorOn = (initAll vt).selectorOn) ∧
       (vt'.contactForm = vt.contactForm →
         (initAll vt').contactFormOn = (initAll vt).contactFormOn) ∧
       (vt'.calendlyTrigger = vt.calendlyTrigger → vt'.calendlyModal = vt.calendlyModal →
         (initAll vt').modalOn = (initAll vt).modalOn)) := by
  intro vt
  constructor
  · refine ⟨fun h => by simp [initAll, h], fun h => by simp [initAll, h],
           fun h => ?_, fun h => ?_, fun h => by simp [initAll, h], fun h => ?_⟩
    · rcases h with h | h <;> simp [initAll, h]
    · rcases h with h | h <;> simp [initAll, h]
    · rcases h with h | h <;> simp [initAll, h]
  · intro vt'
    refine ⟨fun h => by simp [initAll, h], fun h => by simp [initAll, h],
           fun h1 h2 => by simp [initAll, h1, h2], fun h1 h2 => by simp [initAll, h1, h2],
           fun h => by simp [initAll, h], fun h1 h2 => by simp [initAll, h1, h2]⟩

/-- C9 witness: removing the contact form disables the contact form
component and leaves the modal component untouched. -/
theorem C9_guarded_init_witness :
    (initAll { sampleViewTree with contactForm := false }).contactFormOn = false ∧
    (initAll { sampleViewTree with contactForm := false }).modalOn =
      (initAll sampleViewTree).modalOn :=
  ⟨(C9_guarded_init { sampleViewTree with contactForm := false }).1.2.2.2.2.1 rfl,
   ((C9_guarded_init sampleViewTree).2
      { sampleViewTree with contactForm := false }).2.2.2.2.2 rfl rfl⟩

theorem find?_of_firstEmailIdx (fs : List Field) (i : Nat) (f : Field)
    (h1 : firstEmailIdx fs = some i) (h2 : fs[i]? = some f) :
    fs.find? (·.typeEmail) = some f := by
  induction fs generalizing i with
  | nil => cases h1
  | cons g rest ih =>
    by_cases hte : g.typeEmail = true
    · rw [firstEmailIdx, if_pos hte] at h1
      have hi0 : i = 0 := (Option.some.inj h1).symm
      subst hi0
      simp only [List.getElem?_cons_zero, Option.some.injEq] at h2
      subst h2
      simp [List.find?_cons, hte]
    · rw [firstEmailIdx, if_neg hte] at h1
      cases hr : firstEmailIdx rest with
      | none => rw [hr] at h1; cases h1
      | some j =>
        rw [hr] at h1
        simp only [Option.map_some', Option.some.injEq] at h1
        subst h1
        simp only [List.getElem?_cons_succ] at h2
        simp only [List.find?_cons, hte, Bool.false_eq_true]
        exact ih j hr h2

/-- C10.  When the first email-typed field's value is empty, the email
check is skipped entirely: validation reduces to the required-field pass
and the email field keeps exactly the mark the required pass gave it;
consequently an empty non-required email field cannot fail validation, and
with all required fields filled and the honeypot empty the submit reaches
the network (one call is made). -/
theorem C10_empty_email_skipped :
    (∀ (fs : List Field) (i : Nat) (f : Field),
       firstEmailIdx fs = some i → fs[i]? = some f → f.value = "" →
       ((validateForm fs).1 = requiredOk fs ∧
        ((validateForm fs).2)[i]? = some (reqMark f))) ∧
    (∀ (env : PageEnv) (st : FormPage) (net : FetchResult) (i : Nat) (f : Field),
       firstEmailIdx st.fields = some i → st.fields[i]? = some f →
       f.value = "" → requiredOk st.fields = true → honeypotFilled st.fields = false →
       (handleSubmit env st net).2.networkCalls = 1) := by
  have hce : ∀ (fs : List Field) (i : Nat) (f : Field),
      firstEmailIdx fs = some i → fs[i]? = some f → f.value = "" →
      emailCheckOk fs = true := by
    intro fs i f h1 h2 hv
    have hfind := find?_of_firstEmailIdx fs i f h1 h2
    unfold emailCheckOk
    rw [hfind]
    show (f.value.isEmpty || emailRegexMatch f.value) = true
    rw [hv]
    decide
  have hef : ∀ f : Field, f.value = "" → emailFails f = false := by
    intro f hv
    unfold emailFails
    rw [hv, show ("" : String).isEmpty = true from rfl]
    simp
  constructor
  · intro fs i f h1 h2 hv
    constructor
    · rw [validateForm_fst, hce fs i f h1 h2 hv, Bool.and_true]
    · have := validateForm_getElem fs i f h2
      rw [this, if_neg (by rintro ⟨-, hc⟩; rw [hef f hv] at hc; cases hc)]
  · intro env st net i f h1 h2 hv hreq hh
    have hvalid : (validateForm st.fields).1 = true := by
      rw [validateForm_fst, hreq, hce st.fields i f h1 h2 hv, Bool.and_self]
    have hh2 : honeypotFilled (validateForm st.fields).2 = false := by
      rw [honeypotFilled_validateForm]
      exact hh
    cases hok : net.ok <;> simp [handleSubmit, hvalid, hh2, hok]

/-- C10 witness: a concrete form with a filled required name field and an
empty non-required email field passes validation and reaches the network
even on a failing response. -/
theorem C10_empty_email_skipped_witness :
    ((validateForm [sampleName, sampleEmptyEmail]).1 =
       requiredOk [sampleName, sampleEmptyEmail] ∧
     ((validateForm [sampleName, sampleEmptyEmail]).2)[1]? =
       some (reqMark sampleEmptyEmail)) ∧
    (handleSubmit sampleEnv sampleEmptyEmailPage (FetchResult.resp 500)).2.networkCalls = 1 :=
  ⟨C10_empty_email_skipped.1 [sampleName, sampleEmptyEmail] 1 sampleEmptyEmail
     (by decide) (by decide) rfl,
   C10_empty_email_skipped.2 sampleEnv sampleEmptyEmailPage (FetchResult.resp 500)
     1 sampleEmptyEmail (by decide) (by decide) rfl (by decide) (by decide)⟩

end ArmanLeads
